import Mathlib

/-!
Verification of the gut-punch-cli scheduling core against its specification.

The definitions below are a shallow embedding of the TypeScript sources:
  * `src/core/queue.ts`   — `PriorityQueue`, `Scheduler` (load / poll / run / sleep)
  * `src/core/types.ts`   — `JobDefinition`, the `JobDb` store operations
  * `src/core/enums.ts`   — numeric status and priority enums
  * `src/db/schema.ts`    — table shapes (`scheduled_jobs` has `job_name` as primary key)
Timestamps are modelled as natural numbers (milliseconds).  The code stores
ISO-8601 strings of a fixed format, whose lexicographic order coincides with
chronological order, so `Nat` comparison is a faithful model of the store's
string comparison `next_run <= now`.
-/

namespace GutPunch

/-! ### Enums (src/core/enums.ts) -/

/-- `JobRunStatus` numeric enum values: Pending = 0, Running = 1, Success = 2,
Failed = 3, Retrying = 4.  We keep the raw numbers (as rationals, the model
of JavaScript numbers used below), as the database stores the numeric value
and the code compares with `===` on numbers. -/
def statusPending : ℚ := 0

def statusRunning : ℚ := 1

def statusSuccess : ℚ := 2

def statusFailed : ℚ := 3

/-- `QueuePriority.Default = 1` (lower value = higher priority). -/
def queuePriorityDefault : Int := 1

/-! ### JSON values

A model of the JavaScript JSON data reachable through `JSON.parse` /
`JSON.stringify` in `Scheduler.runNextJob`.

Model boundary (documented, like the `Nat` timestamps): JavaScript numbers
are IEEE-754 doubles; the model represents JSON numbers as exact rationals.
The two agree on the comparisons and payloads the scheduler performs (strict
equality against small integers, short decimal literals); the float64
rounding of extreme literals and the shortest-roundtrip / exponent-notation
rules of JavaScript number printing are outside the model.  JavaScript
strings are UTF-16 and may hold lone surrogates; Lean strings hold Unicode
scalar values, so a lone surrogate escape is modelled as U+FFFD.

Object field lists model JavaScript objects, whose keys are unique; the
parser collapses duplicate keys the way `JSON.parse` does (first position,
last value), and `lookup` is additionally last-wins. -/

inductive Json where
  | null : Json
  | bool (b : Bool) : Json
  | num (q : ℚ) : Json
  | str (s : String) : Json
  | arr (xs : List Json) : Json
  | obj (fields : List (String × Json)) : Json
deriving Repr

/-- The hexadecimal digit character for a value below 16 (lowercase). -/
def hexDigitChar (n : Nat) : Char :=
  if n < 10 then Char.ofNat ('0'.toNat + n) else Char.ofNat ('a'.toNat + n - 10)

/-- `JSON.stringify` escaping of one string character: quote, backslash and
control characters are escaped, everything else is emitted raw. -/
def escapeChar (c : Char) : List Char :=
  if c = '"' then ['\\', '"']
  else if c = '\\' then ['\\', '\\']
  else if c = '\n' then ['\\', 'n']
  else if c = '\r' then ['\\', 'r']
  else if c = '\t' then ['\\', 't']
  else if c.toNat = 8 then ['\\', 'b']
  else if c.toNat = 12 then ['\\', 'f']
  else if c.toNat < 32 then
    ['\\', 'u', '0', '0', hexDigitChar (c.toNat / 16), hexDigitChar (c.toNat % 16)]
  else [c]

/-- `JSON.stringify` escaping of a string body. -/
def escapeString (s : String) : String :=
  String.mk (s.data.foldr (fun c acc => escapeChar c ++ acc) [])

/-- The fractional digits of a non-negative rational below 1, produced by
repeated multiplication by 10.  Parsed JSON numbers are exact decimals, so
the expansion terminates; the fuel bounds it for Lean. -/
def decDigits : Nat → ℚ → String
  | 0, _ => ""
  | fuel + 1, q =>
      if q = 0 then ""
      else
        let q10 := q * 10
        let d := q10.floor
        toString d ++ decDigits fuel (q10 - (d : ℚ))

/-- Decimal notation for a rational: the model of JavaScript number
printing (see the model boundary above: exact where the value is a short
decimal printed in plain notation). -/
def ratToString (q : ℚ) : String :=
  if q.den = 1 then toString q.num
  else
    let s := if q < 0 then "-" else ""
    let a : ℚ := if q < 0 then -q else q
    let ip := a.floor
    s ++ toString ip ++ "." ++ decDigits 64 (a - (ip : ℚ))

mutual

/-- Model of `JSON.stringify` on the JSON data above. -/
def Json.stringify : Json → String
  | .null => "null"
  | .bool true => "true"
  | .bool false => "false"
  | .num q => ratToString q
  | .str s => "\"" ++ escapeString s ++ "\""
  | .arr xs => "[" ++ Json.stringifyArr xs ++ "]"
  | .obj fs => "\x7b" ++ Json.stringifyFields fs ++ "\x7d"

def Json.stringifyArr : List Json → String
  | [] => ""
  | [x] => Json.stringify x
  | x :: y :: xs => Json.stringify x ++ "," ++ Json.stringifyArr (y :: xs)

def Json.stringifyFields : List (String × Json) → String
  | [] => ""
  | [(k, v)] => "\"" ++ escapeString k ++ "\":" ++ Json.stringify v
  | (k, v) :: f :: fs =>
      "\"" ++ escapeString k ++ "\":" ++ Json.stringify v ++ ","
        ++ Json.stringifyFields (f :: fs)

end

/-- Field lookup on a JSON object (JavaScript property access `j.k`);
`none` models `undefined` — also for every non-object non-null value, whose
property access yields `undefined` in JavaScript.  Last occurrence wins, as
in a JavaScript object (parsed objects are already duplicate-free). -/
def Json.lookup (j : Json) (key : String) : Option Json :=
  match j with
  | .obj fs => fs.foldl (fun acc p => if p.1 = key then some p.2 else acc) none
  | _ => none

/-- JavaScript truthiness of a JSON value (`result.output ? ... : undefined`). -/
def Json.truthy : Json → Bool
  | .null => false
  | .bool b => b
  | .num q => q ≠ 0
  | .str s => s ≠ ""
  | .arr _ => true
  | .obj _ => true

/-! ### A JSON parser, modelling `JSON.parse` on the captured stdout.

Recursive descent over the character list with a fuel argument (the input
length suffices, every step consumes at least one character). -/

/-- Skip JSON whitespace. -/
def skipWs : List Char → List Char
  | c :: cs => if c = ' ' ∨ c = '\n' ∨ c = '\t' ∨ c = '\r' then skipWs cs else c :: cs
  | [] => []

/-- The numeric value of a hexadecimal digit character. -/
def hexDigitVal (c : Char) : Option Nat :=
  if '0' ≤ c ∧ c ≤ '9' then some (c.toNat - '0'.toNat)
  else if 'a' ≤ c ∧ c ≤ 'f' then some (c.toNat - 'a'.toNat + 10)
  else if 'A' ≤ c ∧ c ≤ 'F' then some (c.toNat - 'A'.toNat + 10)
  else none

/-- The value of four hexadecimal digits (a `\uXXXX` escape). -/
def hex4 (a b c d : Char) : Option Nat :=
  match hexDigitVal a, hexDigitVal b, hexDigitVal c, hexDigitVal d with
  | some x, some y, some z, some w => some (((x * 16 + y) * 16 + z) * 16 + w)
  | _, _, _, _ => none

/-- A code point as a Lean character: a lone surrogate (representable in a
UTF-16 JavaScript string but not as a Unicode scalar) becomes U+FFFD. -/
def scalarOf (u : Nat) : Char :=
  if 55296 ≤ u ∧ u ≤ 57343 then Char.ofNat 65533 else Char.ofNat u

/-- Parse the body of a JSON string literal after the opening quote into its
UTF-16 code units, with the standard escape sequences; an unescaped control
character or an invalid escape is a syntax error, as in `JSON.parse`.
Raw characters contribute their code point (a non-surrogate scalar), each
`\uXXXX` escape contributes its unit. -/
def parseStringUnits (acc : List Nat) : List Char → Option (List Nat × List Char)
  | [] => none
  | '"' :: cs => some (acc.reverse, cs)
  | '\\' :: '"' :: r => parseStringUnits (34 :: acc) r
  | '\\' :: '\\' :: r => parseStringUnits (92 :: acc) r
  | '\\' :: '/' :: r => parseStringUnits (47 :: acc) r
  | '\\' :: 'b' :: r => parseStringUnits (8 :: acc) r
  | '\\' :: 'f' :: r => parseStringUnits (12 :: acc) r
  | '\\' :: 'n' :: r => parseStringUnits (10 :: acc) r
  | '\\' :: 'r' :: r => parseStringUnits (13 :: acc) r
  | '\\' :: 't' :: r => parseStringUnits (9 :: acc) r
  | '\\' :: 'u' :: a :: b :: c :: d :: r =>
      (match hex4 a b c d with
       | some u => parseStringUnits (u :: acc) r
       | none => none)
  | '\\' :: _ => none
  | c :: cs => if c.toNat < 32 then none else parseStringUnits (c.toNat :: acc) cs

/-- Combine a UTF-16 unit sequence into characters: a high/low surrogate
pair becomes one scalar, a lone surrogate becomes U+FFFD (see the model
boundary note above). -/
def unitsToChars : List Nat → List Char
  | [] => []
  | [u] => [scalarOf u]
  | u :: u2 :: rest =>
      if 55296 ≤ u ∧ u ≤ 56319 then
        if 56320 ≤ u2 ∧ u2 ≤ 57343 then
          Char.ofNat (65536 + (u - 55296) * 1024 + (u2 - 56320)) :: unitsToChars rest
        else Char.ofNat 65533 :: unitsToChars (u2 :: rest)
      else scalarOf u :: unitsToChars (u2 :: rest)

/-- Parse the body of a JSON string literal after the opening quote. -/
def parseStringBody (input : List Char) : Option (String × List Char) :=
  match parseStringUnits [] input with
  | some (units, rest) => some (String.mk (unitsToChars units), rest)
  | none => none

/-- Parse a run of decimal digits into a natural number. -/
def parseDigits (acc : Nat) (seen : Bool) : List Char → Option (Nat × List Char)
  | [] => if seen then some (acc, []) else none
  | c :: cs =>
      if c.isDigit then parseDigits (acc * 10 + (c.toNat - '0'.toNat)) true cs
      else if seen then some (acc, c :: cs) else none

/-- Parse a run of decimal digits, counting them. -/
def parseDigitsCnt (acc cnt : Nat) (seen : Bool) : List Char → Option (Nat × Nat × List Char)
  | [] => if seen then some (acc, cnt, []) else none
  | c :: cs =>
      if c.isDigit then parseDigitsCnt (acc * 10 + (c.toNat - '0'.toNat)) (cnt + 1) true cs
      else if seen then some (acc, cnt, c :: cs) else none

/-- The integer part of the JSON number grammar: `0 | [1-9][0-9]*`
(a leading zero is followed by nothing — `007` is a syntax error because the
number ends after the `0` and `07` is trailing input). -/
def parseIntPart : List Char → Option (Nat × List Char)
  | '0' :: rest => some (0, rest)
  | cs => parseDigits 0 false cs

/-- The optional fraction of the JSON number grammar: `.` followed by at
least one digit, returned with its digit count. -/
def parseFrac : List Char → Option (Nat × Nat × List Char)
  | '.' :: rest =>
      (match parseDigitsCnt 0 0 false rest with
       | some (f, k, r) => some (f, k, r)
       | none => none)
  | cs => some (0, 0, cs)

/-- The optional exponent of the JSON number grammar:
`e` or `E`, an optional sign, and at least one digit. -/
def parseExp : List Char → Option (Int × List Char)
  | c :: rest =>
      if c = 'e' ∨ c = 'E' then
        match rest with
        | '+' :: r2 =>
            (match parseDigits 0 false r2 with
             | some (e, r3) => some ((e : Int), r3)
             | none => none)
        | '-' :: r2 =>
            (match parseDigits 0 false r2 with
             | some (e, r3) => some (-(e : Int), r3)
             | none => none)
        | r2 =>
            (match parseDigits 0 false r2 with
             | some (e, r3) => some ((e : Int), r3)
             | none => none)
      else some (0, c :: rest)
  | [] => some (0, [])

/-- The rational `±m * 10^pow10`. -/
def scaledDecimal (neg : Bool) (m : Nat) (pow10 : Int) : ℚ :=
  let sm : Int := if neg then -(m : Int) else (m : Int)
  if 0 ≤ pow10 then ((sm * (10 : Int) ^ pow10.toNat : Int) : ℚ)
  else ((sm : ℚ) / ((10 : ℚ) ^ (-pow10).toNat))

/-- Parse the JSON number grammar after the optional minus sign. -/
def parseNumberAfterSign (neg : Bool) (cs : List Char) : Option (ℚ × List Char) :=
  match parseIntPart cs with
  | none => none
  | some (ip, cs2) =>
      match parseFrac cs2 with
      | none => none
      | some (f, k, cs3) =>
          match parseExp cs3 with
          | none => none
          | some (e, cs4) => some (scaledDecimal neg (ip * 10 ^ k + f) (e - (k : Int)), cs4)

/-- Parse a JSON number. -/
def parseNumber : List Char → Option (ℚ × List Char)
  | '-' :: rest => parseNumberAfterSign true rest
  | cs => parseNumberAfterSign false cs

/-- Collapse duplicate object keys the way `JSON.parse` does: each key keeps
its first position and its last value. -/
def dedupFields (fs : List (String × Json)) : List (String × Json) :=
  fs.foldr (fun p acc =>
    match acc.find? (fun q => q.1 = p.1) with
    | some q => q :: acc.filter (fun q2 => ¬ q2.1 = p.1)
    | none => p :: acc) []

mutual

/-- Parse one JSON value. -/
def parseVal : Nat → List Char → Option (Json × List Char)
  | 0, _ => none
  | fuel + 1, cs =>
    match skipWs cs with
    | 'n' :: 'u' :: 'l' :: 'l' :: rest => some (.null, rest)
    | 't' :: 'r' :: 'u' :: 'e' :: rest => some (.bool true, rest)
    | 'f' :: 'a' :: 'l' :: 's' :: 'e' :: rest => some (.bool false, rest)
    | '"' :: rest =>
        match parseStringBody rest with
        | some (s, rest2) => some (.str s, rest2)
        | none => none
    | '-' :: rest =>
        match parseNumber ('-' :: rest) with
        | some (q, rest2) => some (.num q, rest2)
        | none => none
    | '[' :: rest =>
        (match skipWs rest with
         | ']' :: rest2 => some (.arr [], rest2)
         | rest2 =>
             match parseArrItems fuel rest2 with
             | some (xs, rest3) => some (.arr xs, rest3)
             | none => none)
    | '\x7b' :: rest =>
        (match skipWs rest with
         | '\x7d' :: rest2 => some (.obj [], rest2)
         | rest2 =>
             match parseObjFields fuel rest2 with
             | some (fs, rest3) => some (.obj (dedupFields fs), rest3)
             | none => none)
    | c :: rest =>
        if c.isDigit then
          match parseNumber (c :: rest) with
          | some (q, rest2) => some (.num q, rest2)
          | none => none
        else none
    | [] => none

/-- Parse one or more comma-separated array elements, then the closing bracket. -/
def parseArrItems : Nat → List Char → Option (List Json × List Char)
  | 0, _ => none
  | fuel + 1, cs =>
    match parseVal fuel cs with
    | some (j, rest) =>
        (match skipWs rest with
         | ',' :: rest2 =>
             (match parseArrItems fuel rest2 with
              | some (xs, rest3) => some (j :: xs, rest3)
              | none => none)
         | ']' :: rest2 => some ([j], rest2)
         | _ => none)
    | none => none

/-- Parse one or more comma-separated object members, then the closing brace. -/
def parseObjFields : Nat → List Char → Option (List (String × Json) × List Char)
  | 0, _ => none
  | fuel + 1, cs =>
    match skipWs cs with
    | '"' :: rest =>
        (match parseStringBody rest with
         | some (k, rest2) =>
             (match skipWs rest2 with
              | ':' :: rest3 =>
                  (match parseVal fuel rest3 with
                   | some (v, rest4) =>
                       (match skipWs rest4 with
                        | ',' :: rest5 =>
                            (match parseObjFields fuel rest5 with
                             | some (fs, rest6) => some ((k, v) :: fs, rest6)
                             | none => none)
                        | '\x7d' :: rest5 => some ([(k, v)], rest5)
                        | _ => none)
                   | none => none)
              | _ => none)
         | none => none)
    | _ => none

end

/-- Model of `JSON.parse`: parse the whole string as one JSON value,
allowing trailing whitespace only. -/
def jsonParse (s : String) : Option Json :=
  match parseVal (s.length + 1) s.data with
  | some (j, rest) => if skipWs rest = [] then some j else none
  | none => none

/-! ### Data model (src/core/types.ts, src/core/queue.ts) -/

/-- `JobDefinition` from `src/core/queue.ts` (`Scheduler.loadJobs` builds it).
The `ctor` field (a JavaScript class value) is not representable and is not
consulted by any property below; the in-process execution outcome is instead
supplied as part of the execution environment. -/
structure JobDefinition where
  filePath : String
  name : String
  queue : String
  reschedule : Bool
  rescheduleIn : Option Nat
  maxRetries : Option Nat
  runInProcess : Bool
deriving Repr, DecidableEq

/-- A row of the `scheduled_jobs` table (`job_name` is the primary key). -/
structure ScheduledJobRecord where
  job_name : String
  next_run : Nat
deriving Repr, DecidableEq

/-- A row of the `job_runs` table (`JobRunRecord`).  The `status` and `error`
columns receive whatever JavaScript value the result carried (the code never
validates `result.status` from a parsed payload), so they are modelled as
JSON values; the scheduler itself writes the numeric enum statuses and
string error messages. -/
structure JobRunRecord where
  id : Nat
  job_name : String
  queue_name : String
  priority : Int
  status : Json
  started_at : Option Nat := none
  finished_at : Option Nat := none
  output : Option String := none
  error : Option Json := none
deriving Repr

/-- The partial update passed to `JobDb.updateJobRun` (`Partial<JobRunRecord>`):
only the provided fields are overwritten (merge-update; drizzle ignores
`undefined` values in `set`, modelled by `none`). -/
structure JobRunUpdate where
  status : Option Json := none
  started_at : Option Nat := none
  finished_at : Option Nat := none
  output : Option String := none
  error : Option Json := none
deriving Repr

/-- Apply a merge-update to one row. -/
def applyUpdate (r : JobRunRecord) (u : JobRunUpdate) : JobRunRecord :=
  { r with
    status := u.status.getD r.status
    started_at := u.started_at <|> r.started_at
    finished_at := u.finished_at <|> r.finished_at
    output := u.output <|> r.output
    error := u.error <|> r.error }

/-! ### Durable store operations (`JobDb`, src/core/types.ts)

The store is modelled as in-memory tables; `scheduled_jobs` is a list of rows
whose well-formedness invariant (from the primary key on `job_name`) is that
names are pairwise distinct. -/

/-- `JobDb.upsertScheduledJob`: insert, or on conflict on the `job_name`
primary key update `next_run` in place. -/
def upsertScheduledJob (tbl : List ScheduledJobRecord) (job : ScheduledJobRecord) :
    List ScheduledJobRecord :=
  if tbl.any (fun r => r.job_name = job.job_name) then
    tbl.map (fun r => if r.job_name = job.job_name then { r with next_run := job.next_run } else r)
  else
    tbl ++ [job]

/-- `JobDb.removeScheduledJob`: `DELETE ... WHERE job_name = name`
(a no-op when no row matches). -/
def removeScheduledJob (tbl : List ScheduledJobRecord) (name : String) :
    List ScheduledJobRecord :=
  tbl.filter (fun r => r.job_name ≠ name)

/-- `JobDb.getDueScheduledJobs`: `SELECT ... WHERE next_run <= now`.
The method signature takes only `now`; no LIMIT clause is applied
(the caller in `Scheduler.pollAndEnqueueJobs` passes a second argument `50`,
which this implementation ignores). -/
def getDueScheduledJobs (tbl : List ScheduledJobRecord) (now : Nat) :
    List ScheduledJobRecord :=
  tbl.filter (fun r => r.next_run ≤ now)

/-- Modelled from the spec: `getNextScheduledRun()` is called by
`Scheduler.scheduleJobs` but no implementation of it appears in the sources;
per the spec it "returns the single earliest pending `nextRun`, or none". -/
def getNextScheduledRun (tbl : List ScheduledJobRecord) : Option Nat :=
  tbl.foldr (fun r acc =>
    match acc with
    | none => some r.next_run
    | some m => some (min r.next_run m)) none

/-- `JobDb.updateJobRun`: merge-update of the row with the given id. -/
def updateJobRun (runs : List JobRunRecord) (id : Nat) (u : JobRunUpdate) :
    List JobRunRecord :=
  runs.map (fun r => if r.id = id then applyUpdate r u else r)

/-! ### PriorityQueue (src/core/queue.ts, lines 18–37) -/

/-- `QueueItem` from `src/core/queue.ts`. -/
structure QueueItem where
  job : JobDefinition
  priority : Int
  runId : Nat
deriving Repr, DecidableEq

/-- The comparator `(a, b) => a.priority - b.priority` sorts ascending
by priority. -/
def qle (a b : QueueItem) : Prop := a.priority ≤ b.priority

instance : DecidableRel qle := fun a b => inferInstanceAs (Decidable (a.priority ≤ b.priority))

instance : IsTotal QueueItem qle := ⟨fun a b => Int.le_total a.priority b.priority⟩

instance : IsTrans QueueItem qle := ⟨fun _ _ _ hab hbc => le_trans hab hbc⟩

/-- `PriorityQueue`: a list of items kept sorted by the comparator. -/
structure PriorityQueue where
  items : List QueueItem
deriving Repr, DecidableEq

/-- `new PriorityQueue()`. -/
def PriorityQueue.empty : PriorityQueue := ⟨[]⟩

/-- `PriorityQueue.enqueue`: push the new item, then stable-sort the array by
ascending priority.  `Array.prototype.sort` is required to be stable, and
`List.insertionSort` with the non-strict comparison is a stable sort, so the
two agree extensionally. -/
def PriorityQueue.enqueue (q : PriorityQueue) (job : JobDefinition) (runId : Nat)
    (priority : Int) : PriorityQueue :=
  ⟨(q.items ++ [QueueItem.mk job priority runId]).insertionSort qle⟩

/-- `PriorityQueue.dequeue`: `Array.prototype.shift` — remove and return the
first item, or `undefined` on an empty queue. -/
def PriorityQueue.dequeue (q : PriorityQueue) : Option (QueueItem × PriorityQueue) :=
  match q.items with
  | [] => none
  | x :: xs => some (x, ⟨xs⟩)

/-- `PriorityQueue.size`. -/
def PriorityQueue.size (q : PriorityQueue) : Nat := q.items.length

/-- A sequence of `enqueue` calls applied in order. -/
def enqueueAll (q : PriorityQueue) : List (JobDefinition × Nat × Int) → PriorityQueue
  | [] => q
  | (j, r, p) :: rest => enqueueAll (q.enqueue j r p) rest

/-- The sequence of items produced by repeatedly calling `dequeue` until the
queue reports empty. -/
def drainAux : Nat → PriorityQueue → List QueueItem
  | 0, _ => []
  | n + 1, q =>
    match q.dequeue with
    | none => []
    | some (x, q') => x :: drainAux n q'

/-- Drain a queue by repeated `dequeue` calls (`size` many suffice). -/
def PriorityQueue.drain (q : PriorityQueue) : List QueueItem :=
  drainAux q.size q

/-! ### Execution Engine (Scheduler.runNextJob, src/core/queue.ts lines 203–254) -/

/-- The result value consumed by `runNextJob`.  For an in-process run this is
whatever `run()` returned; for a subprocess it is whatever value `JSON.parse`
produced, so every field may be absent (`undefined`) or hold an arbitrary
JSON value. -/
structure JobResult where
  status : Option Json
  output : Option Json := none
  error : Option Json := none
deriving Repr

/-- Read a `JobResult` off a parsed non-null JSON value exactly as the
JavaScript code accesses `result.status` / `result.output` / `result.error`:
property access on an object reads the field, property access on any other
non-null value yields `undefined` (`Json.lookup` models both).  The null
case never reaches this function — `null.status` throws (see `executeJob`). -/
def jobResultOfJson (j : Json) : JobResult :=
  { status := j.lookup "status"
    output := j.lookup "output"
    error := j.lookup "error" }

/-- The message of the `SyntaxError` thrown by `JSON.parse` on malformed
input (platform-defined text, modelled as a constant). -/
def jsonParseErrorMessage : String := "JSON Parse error: unexpected input"

/-- The message of the `TypeError` thrown by `result.status` when the parsed
payload is `null` (platform-defined text, modelled as a constant). -/
def typeErrorNullMessage : String :=
  "TypeError: null is not an object (evaluating result.status)"

/-- `result.status === JobRunStatus.Success`: strict equality holds exactly
when the value is the number 2. -/
def isSuccessStatus : Option Json → Bool
  | some (.num q) => decide (q = statusSuccess)
  | _ => false

/-- `result.error ?? undefined`: nullish coalescing maps `null` (and absence)
to `undefined`, every other value passes through. -/
def nullishCoalesce : Option Json → Option Json
  | some .null => none
  | e => e

/-- The behaviour of the environment for one dispatched execution:
the outcome of `new jobDef.ctor().run()` if run in process (either a result
or a thrown fault with its message), and the exit code / captured stdout /
captured stderr of the spawned subprocess otherwise. -/
structure ExecEnv where
  runOutcome : Except String JobResult
  exitCode : Int
  stdout : String
  stderr : String
deriving Repr

/-- The `try` body of `runNextJob` up to (and including) the first access of
`result.status`: in-process call, or subprocess with `JSON.parse(stdout)` on
exit code 0 and `throw new Error(...)` on a non-zero exit code.  `.error msg`
models a thrown fault carrying `msg`: a non-zero exit, a `JSON.parse` syntax
error, a `null` payload (whose `result.status` access throws a `TypeError`
at the subsequent update), or an in-process fault (including a null-returning
handler, modelled by the environment as `.error`). -/
def executeJob (jobDef : JobDefinition) (env : ExecEnv) : Except String JobResult :=
  if jobDef.runInProcess then
    env.runOutcome
  else if env.exitCode = 0 then
    match jsonParse env.stdout with
    | some .null => .error typeErrorNullMessage
    | some j => .ok (jobResultOfJson j)
    | none => .error jsonParseErrorMessage
  else
    .error ("Exit Code " ++ toString env.exitCode ++ ": " ++ env.stderr)

/-- JavaScript truthiness of `jobDef.rescheduleIn`
(`undefined`, `0` are falsy). -/
def rescheduleInTruthy (d : JobDefinition) : Bool :=
  match d.rescheduleIn with
  | some n => n ≠ 0
  | none => false

/-- The durable state touched by the dispatch step. -/
structure SchedState where
  runs : List JobRunRecord
  scheduled : List ScheduledJobRecord
  nextRunId : Nat
deriving Repr

/-- `Scheduler.runNextJob` for one queue: dequeue one item (return unchanged
when empty), mark the run `Running`, execute, then either persist the result
and recompute the schedule, or — when execution threw — record a `Failed`
run (the `catch` block, which touches the schedule table not at all).
`startedAt` and `finishedAt` are the tick instants of the two `new Date()`
calls; the reschedule `Date.now()` shares the completion instant. -/
def runNextJob (startedAt finishedAt : Nat) (env : ExecEnv) (q : PriorityQueue)
    (st : SchedState) : PriorityQueue × SchedState :=
  match q.dequeue with
  | none => (q, st)
  | some (item, q') =>
    let runningUpd : JobRunUpdate :=
      { status := some (.num statusRunning), started_at := some startedAt }
    let st1 : SchedState := { st with runs := updateJobRun st.runs item.runId runningUpd }
    match executeJob item.job env with
    | .ok result =>
        let resultUpd : JobRunUpdate :=
          { status := result.status
            finished_at := some finishedAt
            output :=
              match result.output with
              | some o => if o.truthy then some o.stringify else none
              | none => none
            error := nullishCoalesce result.error }
        let st2 : SchedState := { st1 with runs := updateJobRun st1.runs item.runId resultUpd }
        if isSuccessStatus result.status = true ∧ item.job.reschedule = true ∧
            rescheduleInTruthy item.job = true then
          let entry : ScheduledJobRecord :=
            ⟨item.job.name, finishedAt + item.job.rescheduleIn.getD 0⟩
          (q', { st2 with scheduled := upsertScheduledJob st2.scheduled entry })
        else
          (q', { st2 with scheduled := removeScheduledJob st2.scheduled item.job.name })
    | .error msg =>
        let failedUpd : JobRunUpdate :=
          { status := some (.num statusFailed), finished_at := some finishedAt,
            error := some (.str msg) }
        (q', { st1 with runs := updateJobRun st1.runs item.runId failedUpd })

/-! ### Sleep-delay computation (Scheduler.scheduleJobs, lines 163–170) -/

/-- The delay computed at the end of each tick: the 1000 ms fallback when no
schedule is pending, otherwise `Math.max(0, Math.min(nextRun - now, 30000))`. -/
def computeDelay (tbl : List ScheduledJobRecord) (now : Nat) : Int :=
  match getNextScheduledRun tbl with
  | none => 1000
  | some next => max 0 (min ((next : Int) - (now : Int)) 30000)

/-! ### Poll step (Scheduler.pollAndEnqueueJobs, lines 180–201) -/

/-- The three queues built by the `Scheduler` constructor (lines 72–75). -/
def initialQueues : List (String × PriorityQueue) :=
  [("high", PriorityQueue.empty), ("default", PriorityQueue.empty),
   ("low", PriorityQueue.empty)]

/-- Replace the value stored under a key of an association list. -/
def assocSet (l : List (String × PriorityQueue)) (k : String) (v : PriorityQueue) :
    List (String × PriorityQueue) :=
  l.map (fun p => if p.1 = k then (k, v) else p)

/-- Result of the poll step.  `fault = some msg` models an exception escaping
the `for` loop (it is caught by the `.catch` in `scheduleJobs`, so the loop
itself continues on the next tick, but the remaining rows of this batch are
not processed). -/
structure PollResult where
  st : SchedState
  queues : List (String × PriorityQueue)
  fault : Option String
deriving Repr

/-- The `for (const row of rows)` body of `pollAndEnqueueJobs`: resolve the
definition (skip with a logged error when unknown), resolve the configured
priority (`config.queues[queueName]?.priority ?? QueuePriority.Default`),
insert a `Pending` run, then enqueue into `this.queues[queueName]` — which
throws a `TypeError` when no queue of that name exists, aborting the batch. -/
def pollLoop (defs : List (String × JobDefinition)) (config : List (String × Int)) :
    List ScheduledJobRecord → SchedState → List (String × PriorityQueue) → PollResult
  | [], st, queues => ⟨st, queues, none⟩
  | row :: rest, st, queues =>
    match defs.lookup row.job_name with
    | none => pollLoop defs config rest st queues
    | some jobDef =>
      let queueName := if jobDef.queue = "" then "default" else jobDef.queue
      let priority := (config.lookup queueName).getD queuePriorityDefault
      let runId := st.nextRunId
      let newRun : JobRunRecord :=
        { id := runId, job_name := row.job_name, queue_name := queueName,
          priority := priority, status := .num statusPending }
      let st1 : SchedState :=
        { st with runs := st.runs ++ [newRun], nextRunId := runId + 1 }
      match queues.lookup queueName with
      | none =>
          ⟨st1, queues,
           some ("TypeError: undefined is not an object (this.queues[" ++ queueName ++ "])")⟩
      | some q => pollLoop defs config rest st1 (assocSet queues queueName (q.enqueue jobDef runId priority))

/-- `Scheduler.pollAndEnqueueJobs`: fetch the due rows, then run the loop. -/
def pollAndEnqueueJobs (now : Nat) (defs : List (String × JobDefinition))
    (config : List (String × Int)) (st : SchedState)
    (queues : List (String × PriorityQueue)) : PollResult :=
  pollLoop defs config (getDueScheduledJobs st.scheduled now) st queues

/-! ### Job Catalog (Scheduler.loadJobs, lines 88–154) -/

/-- One export of a job module, as probed by `loadJobs`: whether it is a
function with `prototype.run`, and the metadata read off a fresh instance.
`name = ""` models a missing (or empty, both falsy) `name` property, and
`queue = ""` a missing `queue` property. -/
structure ModuleExport where
  hasRunMethod : Bool
  name : String
  queue : String
  reschedule : Option Bool
  rescheduleIn : Option Nat
  maxRetries : Option Nat
  runInProcess : Bool
deriving Repr

/-- The `JobDefinition` literal built at lines 117–127. -/
def mkDef (filePath : String) (e : ModuleExport) : JobDefinition :=
  { filePath := filePath
    name := e.name
    queue := if e.queue = "" then "default" else e.queue
    reschedule := e.reschedule.getD false
    rescheduleIn := e.rescheduleIn
    maxRetries := e.maxRetries
    runInProcess := e.runInProcess }

/-- The warning logged for a runnable export whose instance has no name. -/
def warnMissingName (file : String) : String :=
  "[Scheduler] Job from " ++ file ++ " is missing a name property."

/-- The error logged when importing or processing a job file throws. -/
def errLoading (file msg : String) : String :=
  "[Scheduler] Error loading job from " ++ file ++ ": " ++ msg

/-- The initial `next_run` seeded for a freshly registered definition
(lines 139–145): `now + rescheduleIn` when `reschedule` is set and
`rescheduleIn` is a number, `now` otherwise. -/
def seedNextRun (now : Nat) (d : JobDefinition) : Nat :=
  if d.reschedule = true ∧ d.rescheduleIn.isSome then now + d.rescheduleIn.getD 0 else now

/-- The `for (const exportName in jobModule)` loop of one file: skip exports
without a run method, warn and continue on a nameless instance, and register
the first named runnable export (`break`).  Returns the registered
definition, if any, and the warnings in emission order. -/
def processExports (filePath : String) : List ModuleExport → Option JobDefinition × List String
  | [] => (none, [])
  | e :: rest =>
    if e.hasRunMethod then
      if e.name = "" then
        match processExports filePath rest with
        | (d, ws) => (d, warnMissingName filePath :: ws)
      else
        (some (mkDef filePath e), [])
    else
      processExports filePath rest

/-- Insert or overwrite the definition registered under a name
(`this.jobDefinitions[jobName] = jobDef`). -/
def assocUpsertDef (l : List (String × JobDefinition)) (k : String) (v : JobDefinition) :
    List (String × JobDefinition) :=
  if l.any (fun p => p.1 = k) then l.map (fun p => if p.1 = k then (k, v) else p)
  else l ++ [(k, v)]

/-- Outcome of a catalog load: the registered definitions (keyed by name),
the schedule table after seeding, and the logged warnings and errors. -/
structure LoadResult where
  jobDefinitions : List (String × JobDefinition)
  scheduled : List ScheduledJobRecord
  warnings : List String
  errors : List String
deriving Repr

/-- `Scheduler.loadJobs` over the discovered files.  Each file is either a
module (its list of exports) or a load failure with a message; a failure is
logged and the remaining files are still processed. -/
def loadJobsFrom (now : Nat) (acc : LoadResult) :
    List (String × Except String (List ModuleExport)) → LoadResult
  | [] => acc
  | (file, .error msg) :: rest =>
      loadJobsFrom now { acc with errors := acc.errors ++ [errLoading file msg] } rest
  | (file, .ok exports) :: rest =>
      match processExports file exports with
      | (none, ws) => loadJobsFrom now { acc with warnings := acc.warnings ++ ws } rest
      | (some d, ws) =>
          loadJobsFrom now
            { acc with
              jobDefinitions := assocUpsertDef acc.jobDefinitions d.name d
              scheduled := upsertScheduledJob acc.scheduled ⟨d.name, seedNextRun now d⟩
              warnings := acc.warnings ++ ws } rest

/-- `loadJobs` starting from an empty registry over a given initial schedule
table. -/
def loadJobs (now : Nat) (initialScheduled : List ScheduledJobRecord)
    (files : List (String × Except String (List ModuleExport))) : LoadResult :=
  loadJobsFrom now ⟨[], initialScheduled, [], []⟩ files

/-! ### Observation helpers -/

/-- Number of rows of the schedule table carrying a given job name. -/
def countName (tbl : List ScheduledJobRecord) (name : String) : Nat :=
  List.count name (tbl.map (fun r => r.job_name))

/-- The `next_run` of the (first) schedule row with a given name. -/
def lookupNextRun (tbl : List ScheduledJobRecord) (name : String) : Option Nat :=
  (tbl.find? (fun r => r.job_name = name)).map (fun r => r.next_run)

/-- The (first) job-run row with a given id. -/
def lookupRun (runs : List JobRunRecord) (id : Nat) : Option JobRunRecord :=
  runs.find? (fun r => r.id = id)

/-- The freshly inserted `Pending` run row of the Poll step. -/
def pendingRunRow (id : Nat) (name qname : String) (priority : Int) : JobRunRecord :=
  ⟨id, name, qname, priority, .num statusPending, none, none, none, none⟩

/-- The queue items corresponding to a list of `(job, runId, priority)`
enqueue calls. -/
def opsItems (ops : List (JobDefinition × Nat × Int)) : List QueueItem :=
  ops.map (fun x => QueueItem.mk x.1 x.2.2 x.2.1)

/-! ### Concrete fixtures used by counterexamples and witnesses -/

/-- A one-shot subprocess job named `j`. -/
def jdSub : JobDefinition := ⟨"f.ts", "j", "default", false, none, none, false⟩

/-- A pending run row with id 7 for job `j`. -/
def runRow7 : JobRunRecord := ⟨7, "j", "default", 1, .num 0, none, none, none, none⟩

/-- Dispatch state holding the pending run 7 and a schedule row for `j`. -/
def stFix : SchedState := ⟨[runRow7], [⟨"j", 0⟩], 8⟩

/-- A queue holding the single item for run 7. -/
def qFix : PriorityQueue := ⟨[⟨jdSub, 1, 7⟩]⟩

/-- A recurring in-process job named `k` with a 500 ms reschedule delay. -/
def jdRec : JobDefinition := ⟨"g.ts", "k", "default", true, some 500, none, true⟩

/-- The same job with a reschedule delay of 0 ms (defined but falsy). -/
def jdRec0 : JobDefinition := ⟨"g.ts", "k", "default", true, some 0, none, true⟩

/-- A pending run row with id 9 for job `k`. -/
def runRow9 : JobRunRecord := ⟨9, "k", "default", 1, .num 0, none, none, none, none⟩

/-- Dispatch state holding the pending run 9 and a schedule row for `k`. -/
def stRec : SchedState := ⟨[runRow9], [⟨"k", 50⟩], 10⟩

/-- A queue holding the single item for run 9 (500 ms recurring job). -/
def qRec : PriorityQueue := ⟨[⟨jdRec, 1, 9⟩]⟩

/-- A queue holding the single item for run 9 (0 ms recurring job). -/
def qRec0 : PriorityQueue := ⟨[⟨jdRec0, 1, 9⟩]⟩

/-! ## Lemmas about the priority queue -/

theorem filter_orderedInsert (p : Int) (x : QueueItem) (l : List QueueItem) :
    (List.orderedInsert qle x l).filter (fun a => a.priority = p)
      = if x.priority = p then x :: l.filter (fun a => a.priority = p)
        else l.filter (fun a => a.priority = p) := by
  induction l with
  | nil =>
    by_cases h : x.priority = p <;> simp [List.orderedInsert, List.filter_cons, h]
  | cons y ys ih =>
    simp only [List.orderedInsert]
    by_cases hxy : qle x y
    · by_cases hx : x.priority = p <;> simp [if_pos hxy, List.filter_cons, hx]
    · have hyx : y.priority < x.priority := by simpa [qle, not_le] using hxy
      by_cases hx : x.priority = p
      · have hy : ¬ y.priority = p := by omega
        simp [if_neg hxy, List.filter_cons, hx, hy, ih]
      · by_cases hy : y.priority = p <;>
          simp [if_neg hxy, List.filter_cons, hx, hy, ih]

theorem filter_insertionSort (p : Int) (l : List QueueItem) :
    (List.insertionSort qle l).filter (fun a => a.priority = p)
      = l.filter (fun a => a.priority = p) := by
  induction l with
  | nil => rfl
  | cons x xs ih =>
    simp only [List.insertionSort, filter_orderedInsert, ih, List.filter_cons]
    by_cases hx : x.priority = p <;> simp [hx]

theorem enqueue_items (q : PriorityQueue) (j : JobDefinition) (r : Nat) (p : Int) :
    (q.enqueue j r p).items = (q.items ++ [QueueItem.mk j p r]).insertionSort qle := rfl

theorem enqueueAll_filter (p : Int) :
    ∀ (ops : List (JobDefinition × Nat × Int)) (q : PriorityQueue),
      (enqueueAll q ops).items.filter (fun a => a.priority = p)
        = q.items.filter (fun a => a.priority = p)
          ++ (opsItems ops).filter (fun a => a.priority = p)
  | [], q => by simp [enqueueAll, opsItems]
  | (j, r, pr) :: rest, q => by
    rw [show enqueueAll q ((j, r, pr) :: rest) = enqueueAll (q.enqueue j r pr) rest from rfl,
      enqueueAll_filter p rest, enqueue_items, filter_insertionSort, List.filter_append]
    simp only [opsItems, List.map_cons, List.filter_cons]
    by_cases hpr : pr = p <;> simp [hpr, List.append_assoc]

theorem enqueueAll_sorted :
    ∀ (ops : List (JobDefinition × Nat × Int)) (q : PriorityQueue),
      q.items.Sorted qle → (enqueueAll q ops).items.Sorted qle
  | [], _, h => h
  | (j, r, pr) :: rest, q, _ => by
    apply enqueueAll_sorted rest
    rw [enqueue_items]
    exact List.sorted_insertionSort qle _

theorem enqueueAll_length :
    ∀ (ops : List (JobDefinition × Nat × Int)) (q : PriorityQueue),
      (enqueueAll q ops).items.length = q.items.length + ops.length
  | [], q => by simp [enqueueAll]
  | (j, r, pr) :: rest, q => by
    have h := (List.perm_insertionSort qle (q.items ++ [QueueItem.mk j pr r])).length_eq
    simp only [enqueueAll, enqueueAll_length rest, enqueue_items, h,
      List.length_append, List.length_cons]
    simp [Nat.add_assoc, Nat.add_comm 1 rest.length]

theorem enqueueAll_perm :
    ∀ (ops : List (JobDefinition × Nat × Int)) (q : PriorityQueue),
      (enqueueAll q ops).items.Perm (q.items ++ opsItems ops)
  | [], q => by simp [enqueueAll, opsItems]
  | (j, r, pr) :: rest, q => by
    have h1 := enqueueAll_perm rest (q.enqueue j r pr)
    have h2 : (q.enqueue j r pr).items.Perm (q.items ++ [QueueItem.mk j pr r]) := by
      rw [enqueue_items]; exact List.perm_insertionSort qle _
    have h3 := h1.trans (h2.append_right (opsItems rest))
    have h4 : (q.items ++ [QueueItem.mk j pr r]) ++ opsItems rest
        = q.items ++ opsItems ((j, r, pr) :: rest) := by
      simp [opsItems]
    rw [show enqueueAll q ((j, r, pr) :: rest) = enqueueAll (q.enqueue j r pr) rest from rfl]
    exact h4 ▸ h3

theorem drainAux_eq (l : List QueueItem) : drainAux l.length ⟨l⟩ = l := by
  induction l with
  | nil => rfl
  | cons x xs ih => simp [drainAux, PriorityQueue.dequeue, ih]

theorem drain_eq_items (q : PriorityQueue) : q.drain = q.items := by
  cases q with
  | mk items => exact drainAux_eq items

/-! ## Lemmas about `getNextScheduledRun` -/

theorem getNextScheduledRun_cons (x : ScheduledJobRecord) (xs : List ScheduledJobRecord) :
    getNextScheduledRun (x :: xs)
      = match getNextScheduledRun xs with
        | none => some x.next_run
        | some m => some (min x.next_run m) := rfl

theorem getNextScheduledRun_spec (tbl : List ScheduledJobRecord) :
    (getNextScheduledRun tbl = none → tbl = [])
    ∧ (∀ t, getNextScheduledRun tbl = some t →
        (∃ r ∈ tbl, r.next_run = t) ∧ ∀ r ∈ tbl, t ≤ r.next_run) := by
  induction tbl with
  | nil => exact ⟨fun _ => rfl, fun t h => by simp [getNextScheduledRun] at h⟩
  | cons x xs ih =>
    constructor
    · intro h
      rw [getNextScheduledRun_cons] at h
      cases hxs : getNextScheduledRun xs <;> simp [hxs] at h
    · intro t h
      rw [getNextScheduledRun_cons] at h
      cases hxs : getNextScheduledRun xs with
      | none =>
        have hnil := ih.1 hxs
        subst hnil
        rw [hxs] at h
        simp only [Option.some_inj] at h
        subst h
        exact ⟨⟨x, by simp⟩, by simp⟩
      | some m =>
        rw [hxs] at h
        have hm := ih.2 m hxs
        have ht : t = min x.next_run m := by simpa using h.symm
        constructor
        · rcases le_total x.next_run m with hle | hle
          · exact ⟨x, by simp, by omega⟩
          · obtain ⟨r, hr, hrt⟩ := hm.1
            exact ⟨r, by simp [hr], by omega⟩
        · intro r hr
          rcases List.mem_cons.mp hr with h1 | h1
          · subst h1; omega
          · have := hm.2 r h1; omega

/-! ## Lemmas about the schedule table -/

theorem map_name_update (tbl : List ScheduledJobRecord) (n : String) (v : Nat) :
    (tbl.map (fun r => if r.job_name = n then { r with next_run := v } else r)).map
        (fun r => r.job_name)
      = tbl.map (fun r => r.job_name) := by
  induction tbl with
  | nil => rfl
  | cons x xs ih => by_cases h : x.job_name = n <;> simp [h, ih]

theorem countName_upsert (tbl : List ScheduledJobRecord) (job : ScheduledJobRecord)
    (h : (tbl.map (fun r => r.job_name)).Nodup) :
    countName (upsertScheduledJob tbl job) job.job_name = 1
    ∧ ((upsertScheduledJob tbl job).map (fun r => r.job_name)).Nodup := by
  rw [upsertScheduledJob]
  split
  case isTrue hany =>
    have hnames := map_name_update tbl job.job_name job.next_run
    have hmem : job.job_name ∈ tbl.map (fun r => r.job_name) := by
      obtain ⟨r, hr, hrn⟩ := List.any_eq_true.mp hany
      exact List.mem_map.mpr ⟨r, hr, by simpa using hrn⟩
    have hle := List.nodup_iff_count_le_one.mp h job.job_name
    have hpos := List.count_pos_iff.mpr hmem
    refine ⟨?_, by rw [hnames]; exact h⟩
    rw [countName, hnames]
    omega
  case isFalse hany =>
    have hnot : job.job_name ∉ tbl.map (fun r => r.job_name) := by
      intro hmem
      obtain ⟨r, hr, hrn⟩ := List.mem_map.mp hmem
      exact hany (List.any_eq_true.mpr ⟨r, hr, by simpa using hrn⟩)
    constructor
    · rw [countName, List.map_append]
      have h0 : List.count job.job_name (tbl.map (fun r => r.job_name)) = 0 :=
        List.count_eq_zero.mpr hnot
      simp [List.count_append, h0]
    · rw [List.map_append]
      simp [List.nodup_append, h, hnot]

theorem countName_remove (tbl : List ScheduledJobRecord) (n : String) :
    countName (removeScheduledJob tbl n) n = 0 := by
  rw [countName, List.count_eq_zero]
  intro hmem
  obtain ⟨r, hr, hrn⟩ := List.mem_map.mp hmem
  have hkeep := List.of_mem_filter hr
  simp only [decide_eq_true_eq] at hkeep
  exact hkeep hrn

theorem remove_absent (tbl : List ScheduledJobRecord) (n : String)
    (h : ∀ r ∈ tbl, r.job_name ≠ n) : removeScheduledJob tbl n = tbl :=
  List.filter_eq_self.mpr (fun r hr => by simpa using h r hr)

theorem upsert_cons_of_ne (x : ScheduledJobRecord) (xs : List ScheduledJobRecord)
    (job : ScheduledJobRecord) (hx : ¬ x.job_name = job.job_name) :
    upsertScheduledJob (x :: xs) job = x :: upsertScheduledJob xs job := by
  simp only [upsertScheduledJob, List.any_cons]
  by_cases hxs : xs.any (fun r => r.job_name = job.job_name) <;> simp [hxs, hx]

theorem lookupNextRun_upsert (tbl : List ScheduledJobRecord) (job : ScheduledJobRecord) :
    lookupNextRun (upsertScheduledJob tbl job) job.job_name = some job.next_run := by
  induction tbl with
  | nil => simp [upsertScheduledJob, lookupNextRun]
  | cons x xs ih =>
    by_cases hx : x.job_name = job.job_name
    · simp [upsertScheduledJob, List.any_cons, hx, lookupNextRun]
    · rw [upsert_cons_of_ne x xs job hx]
      simpa [lookupNextRun, List.find?_cons, hx] using ih

theorem lookupNextRun_remove (tbl : List ScheduledJobRecord) (n : String) :
    lookupNextRun (removeScheduledJob tbl n) n = none := by
  rw [lookupNextRun]
  cases hf : (removeScheduledJob tbl n).find? (fun r => r.job_name = n) with
  | none => rfl
  | some r =>
    have hpred := List.find?_some hf
    have hmem := List.mem_of_find?_eq_some hf
    have hkeep := List.of_mem_filter hmem
    simp only [decide_eq_true_eq] at hpred hkeep
    exact absurd hpred hkeep

theorem applyUpdate_id (r : JobRunRecord) (u : JobRunUpdate) :
    (applyUpdate r u).id = r.id := rfl

theorem lookupRun_update (runs : List JobRunRecord) (id : Nat) (u : JobRunUpdate) :
    lookupRun (updateJobRun runs id u) id
      = (lookupRun runs id).map (fun r => applyUpdate r u) := by
  induction runs with
  | nil => rfl
  | cons x xs ih =>
    by_cases h : x.id = id
    · simp [updateJobRun, lookupRun, List.find?_cons, h, applyUpdate_id]
    · have hupd : updateJobRun (x :: xs) id u = x :: updateJobRun xs id u := by
        simp [updateJobRun, h]
      have hx : (decide (x.id = id)) = false := by simp [h]
      simp only [lookupRun] at ih ⊢
      rw [hupd]
      simp only [List.find?_cons, hx]
      exact ih

/-! ## Claim theorems -/

/-- C4: for every sequence of `enqueue` calls on one `PriorityQueue`, repeated
`dequeue` calls return all enqueued items in non-decreasing order of their
numeric priority value, items of equal priority in their original enqueue
order (the filter at each priority equals the corresponding filter of the
enqueue sequence); `dequeue` on an empty queue returns no item, and `size`
equals the number of enqueued-but-not-dequeued items (both after the enqueues
and across any single dequeue). -/
theorem priorityQueue_order_stable (ops : List (JobDefinition × Nat × Int)) :
    ((enqueueAll PriorityQueue.empty ops).drain).Sorted qle
    ∧ (∀ p : Int, ((enqueueAll PriorityQueue.empty ops).drain).filter
        (fun a => a.priority = p) = (opsItems ops).filter (fun a => a.priority = p))
    ∧ ((enqueueAll PriorityQueue.empty ops).drain).Perm (opsItems ops)
    ∧ PriorityQueue.dequeue PriorityQueue.empty = none
    ∧ (enqueueAll PriorityQueue.empty ops).size = ops.length
    ∧ (∀ q : PriorityQueue, q.size =
        match q.dequeue with
        | none => 0
        | some (_, q') => q'.size + 1) := by
  refine ⟨?_, ?_, ?_, rfl, ?_, ?_⟩
  · rw [drain_eq_items]
    exact enqueueAll_sorted ops PriorityQueue.empty List.sorted_nil
  · intro p
    rw [drain_eq_items, enqueueAll_filter]
    simp [PriorityQueue.empty]
  · rw [drain_eq_items]
    simpa [PriorityQueue.empty] using enqueueAll_perm ops PriorityQueue.empty
  · simp [PriorityQueue.size, enqueueAll_length, PriorityQueue.empty]
  · intro q
    cases q with
    | mk items => cases items <;> simp [PriorityQueue.size, PriorityQueue.dequeue]

/-- C3: in every Sleep phase, `getNextScheduledRun` yields the single earliest
pending `nextRun` (a member of the table that bounds all members from below)
or none exactly when the table is empty; when one exists the computed delay is
`max 0 (min (nextRun - now) 30000)` and when none exists it is the 1000 ms
fallback, so the delay is never negative and never exceeds 30000 ms even when
the earliest due time is in the past. -/
theorem computeDelay_clamped (tbl : List ScheduledJobRecord) (now : Nat) :
    0 ≤ computeDelay tbl now ∧ computeDelay tbl now ≤ 30000
    ∧ (getNextScheduledRun tbl = none → tbl = [] ∧ computeDelay tbl now = 1000)
    ∧ ∀ t, getNextScheduledRun tbl = some t →
        (∃ r ∈ tbl, r.next_run = t) ∧ (∀ r ∈ tbl, t ≤ r.next_run)
        ∧ computeDelay tbl now = max 0 (min ((t : Int) - (now : Int)) 30000) := by
  obtain ⟨hnone, hsome⟩ := getNextScheduledRun_spec tbl
  have hval : ∀ t, getNextScheduledRun tbl = some t →
      computeDelay tbl now = max 0 (min ((t : Int) - (now : Int)) 30000) := by
    intro t ht
    rw [computeDelay, ht]
  refine ⟨?_, ?_, ?_, ?_⟩
  · cases hg : getNextScheduledRun tbl with
    | none => rw [computeDelay, hg]; norm_num
    | some t => rw [hval t hg]; exact le_max_left _ _
  · cases hg : getNextScheduledRun tbl with
    | none => rw [computeDelay, hg]; norm_num
    | some t =>
      rw [hval t hg]
      exact max_le (by norm_num) (min_le_right _ _)
  · intro hg
    exact ⟨hnone hg, by rw [computeDelay, hg]⟩
  · intro t ht
    exact ⟨(hsome t ht).1, (hsome t ht).2, hval t ht⟩

/-- Witness for C3 at a table whose earliest entry is 40000 ms overdue:
the computed delay is clamped to 0. -/
theorem computeDelay_clamped_witness :
    computeDelay [⟨"a", 0⟩] 40000 = max 0 (min ((0 : Int) - (40000 : Int)) 30000)
    ∧ 0 ≤ computeDelay [⟨"a", 0⟩] 40000 ∧ computeDelay [⟨"a", 0⟩] 40000 ≤ 30000 :=
  ⟨(((computeDelay_clamped [⟨"a", 0⟩] 40000).2.2.2) 0 rfl).2.2,
   (computeDelay_clamped [⟨"a", 0⟩] 40000).1,
   (computeDelay_clamped [⟨"a", 0⟩] 40000).2.1⟩

/-- C9: at most one `ScheduledEntry` row exists per job name: starting from a
table satisfying the primary-key invariant (pairwise distinct names), after
`upsertScheduledJob` exactly one row for that name exists, carrying the new
`next_run` (an existing row is overwritten, never duplicated), the invariant
is preserved, and `removeScheduledJob` leaves no row of that name and is a
no-op (not an error) on an absent name. -/
theorem upsertScheduled_unique (tbl : List ScheduledJobRecord) (job : ScheduledJobRecord)
    (h : (tbl.map (fun r => r.job_name)).Nodup) :
    countName (upsertScheduledJob tbl job) job.job_name = 1
    ∧ ((upsertScheduledJob tbl job).map (fun r => r.job_name)).Nodup
    ∧ lookupNextRun (upsertScheduledJob tbl job) job.job_name = some job.next_run
    ∧ (∀ n, countName (removeScheduledJob tbl n) n = 0)
    ∧ (∀ n, (∀ r ∈ tbl, r.job_name ≠ n) → removeScheduledJob tbl n = tbl) :=
  ⟨(countName_upsert tbl job h).1, (countName_upsert tbl job h).2,
   lookupNextRun_upsert tbl job,
   fun n => countName_remove tbl n,
   fun n hn => remove_absent tbl n hn⟩

/-- Witness for C9: upserting an existing name overwrites the single row,
and removing an absent name is the identity. -/
theorem upsertScheduled_unique_witness :
    countName (upsertScheduledJob [⟨"a", 1⟩, ⟨"b", 7⟩] ⟨"a", 5⟩) "a" = 1
    ∧ lookupNextRun (upsertScheduledJob [⟨"a", 1⟩, ⟨"b", 7⟩] ⟨"a", 5⟩) "a" = some 5
    ∧ removeScheduledJob [⟨"a", 1⟩, ⟨"b", 7⟩] "zzz" = [⟨"a", 1⟩, ⟨"b", 7⟩] :=
  ⟨(upsertScheduled_unique [⟨"a", 1⟩, ⟨"b", 7⟩] ⟨"a", 5⟩ (by decide)).1,
   (upsertScheduled_unique [⟨"a", 1⟩, ⟨"b", 7⟩] ⟨"a", 5⟩ (by decide)).2.2.1,
   (upsertScheduled_unique [⟨"a", 1⟩, ⟨"b", 7⟩] ⟨"a", 5⟩ (by decide)).2.2.2.2 "zzz"
     (by decide)⟩

/-- C1 counterexample: the claim as stated fails on two concrete runs.
(a) A faulting execution (subprocess exit code 1) leaves the `ScheduledEntry`
for job `j` in place — the `catch` block never touches the schedule table —
whereas the claim requires it to be removed.  (b) A successful run of a
recurring job whose defined `rescheduleIn` is `0` removes the entry — the code
tests JavaScript truthiness of `rescheduleIn`, not definedness — whereas the
claim requires an upsert with `nextRun = now + 0`. -/
theorem runNextJob_schedule_claim_cex :
    (runNextJob 100 200 ⟨.ok ⟨some (.num 2), none, none⟩, 1, "", "boom"⟩ qFix stFix).2.scheduled
      = [⟨"j", 0⟩]
    ∧ (runNextJob 100 200 ⟨.ok ⟨some (.num 2), none, none⟩, 0, "", ""⟩ qRec0 stRec).2.scheduled
      = [] := by
  constructor <;> decide

/-- C1 (amended): after a dispatched execution, if the result status is
`Success` and the `JobDefinition` has `reschedule` true with a defined and
non-zero `rescheduleIn`, the `ScheduledEntry` for that job name is upserted
with `nextRun` = completion time + `rescheduleIn`; for every other result
delivered without a fault the entry is removed (so after a successful run of
a one-shot job no `ScheduledEntry` remains); a faulting execution leaves the
schedule table unchanged. -/
theorem runNextJob_schedule_amended (startedAt finishedAt : Nat) (env : ExecEnv)
    (q : PriorityQueue) (st : SchedState) (item : QueueItem) (q' : PriorityQueue)
    (hdq : q.dequeue = some (item, q')) :
    (∀ result, executeJob item.job env = .ok result →
       ((isSuccessStatus result.status = true ∧ item.job.reschedule = true ∧
           rescheduleInTruthy item.job = true) →
         lookupNextRun (runNextJob startedAt finishedAt env q st).2.scheduled item.job.name
           = some (finishedAt + item.job.rescheduleIn.getD 0))
       ∧ (¬ (isSuccessStatus result.status = true ∧ item.job.reschedule = true ∧
             rescheduleInTruthy item.job = true) →
         lookupNextRun (runNextJob startedAt finishedAt env q st).2.scheduled item.job.name
             = none
         ∧ countName (runNextJob startedAt finishedAt env q st).2.scheduled item.job.name
             = 0))
    ∧ (∀ msg, executeJob item.job env = .error msg →
        (runNextJob startedAt finishedAt env q st).2.scheduled = st.scheduled) := by
  constructor
  · intro result hres
    constructor
    · intro hcond
      simp only [runNextJob, hdq, hres, if_pos hcond]
      exact lookupNextRun_upsert _ _
    · intro hcond
      simp only [runNextJob, hdq, hres, if_neg hcond]
      exact ⟨lookupNextRun_remove _ _, countName_remove _ _⟩
  · intro msg herr
    simp only [runNextJob, hdq, herr]

/-- Witness for C1 at a recurring in-process job with a 500 ms delay whose
run succeeds at completion time 200: the schedule row is moved to 700. -/
theorem runNextJob_schedule_amended_witness :
    lookupNextRun
      (runNextJob 100 200 ⟨.ok ⟨some (.num 2), none, none⟩, 0, "", ""⟩ qRec stRec).2.scheduled "k"
      = some (200 + 500) :=
  ((runNextJob_schedule_amended 100 200 ⟨.ok ⟨some (.num 2), none, none⟩, 0, "", ""⟩
      qRec stRec ⟨jdRec, 1, 9⟩ ⟨[]⟩ rfl).1 ⟨some (.num 2), none, none⟩ rfl).1
    (by decide)

/-- C5: every execution error — an in-process handler fault, a subprocess
exiting non-zero, or malformed subprocess output — is caught and recorded on
the `JobRun` as status `Failed` with the fault message captured in `error`
(for a non-zero exit the message embeds the exit code and the captured
standard-error text; for malformed output it is the JSON parse error); the
fault is converted into a state update rather than propagating, so the
dispatch step always returns a successor state. -/
theorem execution_fault_failed_run (startedAt finishedAt : Nat) (env : ExecEnv)
    (q : PriorityQueue) (st : SchedState) (item : QueueItem) (q' : PriorityQueue)
    (hdq : q.dequeue = some (item, q')) (msg : String)
    (herr : executeJob item.job env = .error msg) :
    lookupRun (runNextJob startedAt finishedAt env q st).2.runs item.runId
      = (lookupRun st.runs item.runId).map (fun r =>
          { r with status := .num statusFailed, started_at := some startedAt,
                   finished_at := some finishedAt, error := some (.str msg) })
    ∧ (item.job.runInProcess = false → ¬ env.exitCode = 0 →
        msg = "Exit Code " ++ toString env.exitCode ++ ": " ++ env.stderr)
    ∧ (item.job.runInProcess = false → env.exitCode = 0 → jsonParse env.stdout = none →
        msg = jsonParseErrorMessage)
    ∧ (item.job.runInProcess = false → env.exitCode = 0 →
        jsonParse env.stdout = some .null → msg = typeErrorNullMessage)
    ∧ (item.job.runInProcess = true → env.runOutcome = .error msg) := by
  refine ⟨?_, ?_, ?_, ?_, ?_⟩
  · simp only [runNextJob, hdq, herr]
    rw [lookupRun_update, lookupRun_update, Option.map_map]
    cases hl : lookupRun st.runs item.runId with
    | none => rfl
    | some r => simp [Function.comp, applyUpdate]
  · intro hmode hexit
    simp only [executeJob, hmode, Bool.false_eq_true, if_false, if_neg hexit,
      Except.error.injEq] at herr
    exact herr.symm
  · intro hmode hexit hparse
    simp only [executeJob, hmode, Bool.false_eq_true, if_false, hexit,
      eq_self_iff_true, if_true, hparse, Except.error.injEq] at herr
    exact herr.symm
  · intro hmode hexit hnull
    simp only [executeJob, hmode, Bool.false_eq_true, if_false, hexit,
      eq_self_iff_true, if_true, hnull, Except.error.injEq] at herr
    exact herr.symm
  · intro hmode
    simpa [executeJob, hmode] using herr

/-- Witness for C5: a subprocess exiting with code 1 and standard error
`boom` yields a run row with status `Failed` (3) and an error message
embedding the exit code and the stderr text. -/
theorem execution_fault_failed_run_witness :
    lookupRun (runNextJob 100 200 ⟨.ok ⟨some (.num 2), none, none⟩, 1, "", "boom"⟩ qFix stFix).2.runs 7
      = some { id := 7, job_name := "j", queue_name := "default", priority := 1,
               status := .num statusFailed, started_at := some 100, finished_at := some 200,
               output := none, error := some (.str "Exit Code 1: boom") } := by
  have h := (execution_fault_failed_run 100 200 ⟨.ok ⟨some (.num 2), none, none⟩, 1, "", "boom"⟩
      qFix stFix ⟨jdSub, 1, 7⟩ ⟨[]⟩ rfl "Exit Code 1: boom" rfl).1
  rw [h]
  simp [lookupRun, stFix, runRow7, List.find?]

/-- C6: for a subprocess execution exiting with code 0, the captured standard
output is parsed as the JSON result payload and the `JobRun` is updated with
the parsed status and the serialized (truthy) output, while a JSON parse
failure of the stdout is itself recorded as a `Failed` run carrying the parse
error message. -/
theorem subprocess_exit0_parse (startedAt finishedAt : Nat) (env : ExecEnv)
    (q : PriorityQueue) (st : SchedState) (item : QueueItem) (q' : PriorityQueue)
    (r0 : JobRunRecord) (hdq : q.dequeue = some (item, q'))
    (hmode : item.job.runInProcess = false) (hexit : env.exitCode = 0)
    (hr0 : lookupRun st.runs item.runId = some r0)
    (hout0 : r0.output = none) (herr0 : r0.error = none) :
    (∀ j, jsonParse env.stdout = some j → ¬ j = .null →
      lookupRun (runNextJob startedAt finishedAt env q st).2.runs item.runId
        = some { r0 with
            status := (jobResultOfJson j).status.getD (.num statusRunning)
            started_at := some startedAt
            finished_at := some finishedAt
            output :=
              (match (jobResultOfJson j).output with
               | some o => if o.truthy then some o.stringify else none
               | none => none)
            error := nullishCoalesce (jobResultOfJson j).error })
    ∧ (jsonParse env.stdout = none →
      lookupRun (runNextJob startedAt finishedAt env q st).2.runs item.runId
        = some { r0 with
            status := .num statusFailed
            started_at := some startedAt
            finished_at := some finishedAt
            error := some (.str jsonParseErrorMessage) })
    ∧ (jsonParse env.stdout = some .null →
      lookupRun (runNextJob startedAt finishedAt env q st).2.runs item.runId
        = some { r0 with
            status := .num statusFailed
            started_at := some startedAt
            finished_at := some finishedAt
            error := some (.str typeErrorNullMessage) }) := by
  refine ⟨?_, ?_, ?_⟩
  · intro j hj hnull
    have hex : executeJob item.job env = .ok (jobResultOfJson j) := by
      cases j <;> first
        | exact absurd rfl hnull
        | simp [executeJob, hmode, hexit, hj]
    simp only [runNextJob, hdq, hex]
    by_cases hcond : isSuccessStatus (jobResultOfJson j).status = true ∧
        item.job.reschedule = true ∧ rescheduleInTruthy item.job = true
    · simp only [if_pos hcond]
      rw [lookupRun_update, lookupRun_update, Option.map_map, hr0]
      simp [Function.comp, applyUpdate, hout0, herr0]
    · simp only [if_neg hcond]
      rw [lookupRun_update, lookupRun_update, Option.map_map, hr0]
      simp [Function.comp, applyUpdate, hout0, herr0]
  · intro hparse
    have hex : executeJob item.job env = .error jsonParseErrorMessage := by
      simp [executeJob, hmode, hexit, hparse]
    simp only [runNextJob, hdq, hex]
    rw [lookupRun_update, lookupRun_update, Option.map_map, hr0]
    simp [Function.comp, applyUpdate, hout0, herr0]
  · intro hnull
    have hex : executeJob item.job env = .error typeErrorNullMessage := by
      simp [executeJob, hmode, hexit, hnull]
    simp only [runNextJob, hdq, hex]
    rw [lookupRun_update, lookupRun_update, Option.map_map, hr0]
    simp [Function.comp, applyUpdate, hout0, herr0]

set_option maxRecDepth 4000 in
/-- Witness for C6: exit code 0 with stdout
`{"status":2,"output":{"ok":true}}` yields a run row with status `Success`
(2) and serialized output `{"ok":true}`. -/
theorem subprocess_exit0_parse_witness :
    lookupRun (runNextJob 100 200
        ⟨.ok ⟨some (.num 0), none, none⟩, 0, "\x7b\"status\":2,\"output\":\x7b\"ok\":true\x7d\x7d", ""⟩
        qFix stFix).2.runs 7
      = some { id := 7, job_name := "j", queue_name := "default", priority := 1,
               status := .num statusSuccess, started_at := some 100, finished_at := some 200,
               output := some "\x7b\"ok\":true\x7d", error := none } := by
  have h := (subprocess_exit0_parse 100 200
      ⟨.ok ⟨some (.num 0), none, none⟩, 0, "\x7b\"status\":2,\"output\":\x7b\"ok\":true\x7d\x7d", ""⟩
      qFix stFix ⟨jdSub, 1, 7⟩ ⟨[]⟩ runRow7 rfl rfl rfl rfl rfl rfl).1
      (.obj [("status", .num 2), ("output", .obj [("ok", .bool true)])])
      (by rfl)
      (by simp)
  rw [h]
  simp [jobResultOfJson, Json.lookup, Json.truthy, Json.stringify,
    Json.stringifyFields, escapeString, escapeChar, ratToString, nullishCoalesce,
    runRow7, statusSuccess, statusRunning]

/-- C2 (code bug): `getDueScheduledJobs` does return only schedule entries
with `next_run ≤ now`, but it applies no row limit — its signature takes only
`now`, so the batch bound of 50 that the caller requests (and that its own
comment and the spec promise) is ignored: a store with 51 due entries yields
all 51 rows for one Poll tick. -/
theorem getDue_filter_and_no_limit :
    (∀ tbl now, ∀ r ∈ getDueScheduledJobs tbl now, r.next_run ≤ now)
    ∧ (getDueScheduledJobs
        ((List.range 51).map (fun i => ⟨"j" ++ toString i, i⟩)) 100).length = 51 := by
  constructor
  · intro tbl now r hr
    simpa using List.of_mem_filter hr
  · decide

/-- Witness for C2: the membership part at a concrete table. -/
theorem getDue_filter_and_no_limit_witness :
    (⟨"a", 5⟩ : ScheduledJobRecord).next_run ≤ 7 :=
  getDue_filter_and_no_limit.1 [⟨"a", 5⟩] 7 ⟨"a", 5⟩ (by decide)

/-- C7 counterexample: a job declaring a numeric `rescheduleIn` (5000) but
`reschedule` false is seeded at `now` (1000), not at `now + rescheduleIn`
(6000): the code requires `reschedule && typeof rescheduleIn === 'number'`,
while the claim keys only on a numeric `rescheduleIn`. -/
theorem loadJobs_seed_claim_cex :
    (loadJobs 1000 [] [("f.ts", .ok [⟨true, "j", "", none, some 5000, none, false⟩])]).scheduled
      = [⟨"j", 1000⟩]
    ∧ (1000 : Nat) ≠ 1000 + 5000 := by
  constructor <;> decide

/-- C7 (amended): for every successfully built `JobDefinition`, catalog load
seeds an initial `ScheduledEntry` for its name: `nextRun = now + rescheduleIn`
when the job has `reschedule` true and a numeric `rescheduleIn`, and
`nextRun = now` otherwise. -/
theorem loadJobs_seed_amended (now : Nat) (file : String) (e : ModuleExport)
    (sched0 : List ScheduledJobRecord)
    (hrun : e.hasRunMethod = true) (hname : ¬ e.name = "") :
    (loadJobs now sched0 [(file, .ok [e])]).scheduled
      = upsertScheduledJob sched0 ⟨e.name, seedNextRun now (mkDef file e)⟩
    ∧ lookupNextRun (loadJobs now sched0 [(file, .ok [e])]).scheduled e.name
      = some (seedNextRun now (mkDef file e))
    ∧ (∀ d : JobDefinition, d.reschedule = true ∧ d.rescheduleIn.isSome →
        seedNextRun now d = now + d.rescheduleIn.getD 0)
    ∧ (∀ d : JobDefinition, ¬ (d.reschedule = true ∧ d.rescheduleIn.isSome) →
        seedNextRun now d = now) := by
  have hload : (loadJobs now sched0 [(file, .ok [e])]).scheduled
      = upsertScheduledJob sched0 ⟨e.name, seedNextRun now (mkDef file e)⟩ := by
    simp [loadJobs, loadJobsFrom, processExports, hrun, hname, mkDef]
  refine ⟨hload, ?_, ?_, ?_⟩
  · rw [hload]
    simpa using lookupNextRun_upsert sched0 ⟨e.name, seedNextRun now (mkDef file e)⟩
  · intro d hd
    simp [seedNextRun, hd.1, hd.2]
  · intro d hd
    simp only [seedNextRun, if_neg hd]

/-- Witness for C7 at a recurring job declaring a 700 ms delay, loaded at
time 1000: the seeded `nextRun` is 1700. -/
theorem loadJobs_seed_amended_witness :
    lookupNextRun
      (loadJobs 1000 [] [("f.ts", .ok [⟨true, "j", "", some true, some 700, none, false⟩])]).scheduled
      "j" = some 1700 := by
  have h := (loadJobs_seed_amended 1000 "f.ts"
      ⟨true, "j", "", some true, some 700, none, false⟩ [] rfl (by decide)).2.1
  rw [h]
  decide

/-- C8 counterexample: a directory with a single module contributing no valid
job implementation (no export with a run method) is skipped with NO warning —
the loop simply finds no candidate export — whereas the claim requires a
warning for such modules (the code warns only for a nameless job instance). -/
theorem loadJobs_warning_claim_cex :
    (loadJobs 0 [] [("bad.ts", .ok [⟨false, "x", "", none, none, none, false⟩])]).warnings = []
    ∧ (loadJobs 0 []
        [("bad.ts", .ok [⟨false, "x", "", none, none, none, false⟩])]).jobDefinitions = [] := by
  constructor <;> decide

/-- C8 (amended): loading skips silently any module contributing no valid job
implementation, skips with a warning any runnable export whose job instance is
missing a name, and logs any per-file load error — in every case without
aborting the load: a directory with one unnamed module, one erroring file and
one valid module registers exactly the valid `JobDefinition`, with exactly one
warning for the unnamed module and one logged error for the failing file. -/
theorem loadJobs_partial_failure_amended (now : Nat) (f1 f2 f3 msg : String)
    (eU eV : ModuleExport) (sched0 : List ScheduledJobRecord)
    (hU1 : eU.hasRunMethod = true) (hU2 : eU.name = "")
    (hV1 : eV.hasRunMethod = true) (hV2 : ¬ eV.name = "") :
    (loadJobs now sched0 [(f1, .ok [eU]), (f2, .error msg), (f3, .ok [eV])]).jobDefinitions
      = [(eV.name, mkDef f3 eV)]
    ∧ (loadJobs now sched0 [(f1, .ok [eU]), (f2, .error msg), (f3, .ok [eV])]).warnings
      = [warnMissingName f1]
    ∧ (loadJobs now sched0 [(f1, .ok [eU]), (f2, .error msg), (f3, .ok [eV])]).errors
      = [errLoading f2 msg] := by
  refine ⟨?_, ?_, ?_⟩ <;>
    simp [loadJobs, loadJobsFrom, processExports, hU1, hU2, hV1, hV2, assocUpsertDef, mkDef]

/-- Witness for C8: one unnamed module, one erroring file, one valid module,
loaded concretely: exactly the one warning for the unnamed module. -/
theorem loadJobs_partial_failure_amended_witness :
    (loadJobs 0 [] [("a.ts", .ok [⟨true, "", "", none, none, none, false⟩]),
        ("b.ts", .error "boom"),
        ("c.ts", .ok [⟨true, "v", "", none, none, none, false⟩])]).warnings
      = [warnMissingName "a.ts"] :=
  (loadJobs_partial_failure_amended 0 "a.ts" "b.ts" "c.ts" "boom"
      ⟨true, "", "", none, none, none, false⟩ ⟨true, "v", "", none, none, none, false⟩ []
      rfl rfl rfl (by decide)).2.1

/-- C10: the scheduler constructs exactly the three queues `high`, `default`
and `low`; when the first due entry of a Poll batch resolves to a
`JobDefinition` declaring any other (non-empty) queue name, the loop inserts
a `Pending` `JobRun` for it and then faults indexing the queue map, so the
batch is aborted: the fault is set, exactly that one run row was added (still
`Pending`), no queue received an item, the schedule table is untouched, and
the remaining due entries of the batch are not processed. -/
theorem poll_unknown_queue_fault (now : Nat) (defs : List (String × JobDefinition))
    (config : List (String × Int)) (st : SchedState) (row : ScheduledJobRecord)
    (rest : List ScheduledJobRecord) (jd : JobDefinition)
    (hrows : getDueScheduledJobs st.scheduled now = row :: rest)
    (hdef : defs.lookup row.job_name = some jd)
    (hq1 : ¬ jd.queue = "high") (hq2 : ¬ jd.queue = "default") (hq3 : ¬ jd.queue = "low")
    (hne : ¬ jd.queue = "") :
    (pollAndEnqueueJobs now defs config st initialQueues).fault.isSome = true
    ∧ (pollAndEnqueueJobs now defs config st initialQueues).st.runs
        = st.runs ++ [pendingRunRow st.nextRunId row.job_name jd.queue
            ((config.lookup jd.queue).getD queuePriorityDefault)]
    ∧ (pollAndEnqueueJobs now defs config st initialQueues).st.nextRunId = st.nextRunId + 1
    ∧ (pollAndEnqueueJobs now defs config st initialQueues).queues = initialQueues
    ∧ (pollAndEnqueueJobs now defs config st initialQueues).st.scheduled = st.scheduled
    ∧ initialQueues.map Prod.fst = ["high", "default", "low"] := by
  have hlook : initialQueues.lookup jd.queue = none := by
    have h1 : (jd.queue == "high") = false := beq_eq_false_iff_ne.mpr hq1
    have h2 : (jd.queue == "default") = false := beq_eq_false_iff_ne.mpr hq2
    have h3 : (jd.queue == "low") = false := beq_eq_false_iff_ne.mpr hq3
    simp only [initialQueues, List.lookup, h1, h2, h3]
  have hrow : pendingRunRow st.nextRunId row.job_name jd.queue
      ((config.lookup jd.queue).getD queuePriorityDefault)
      = { id := st.nextRunId, job_name := row.job_name, queue_name := jd.queue,
          priority := (config.lookup jd.queue).getD queuePriorityDefault,
          status := .num statusPending } := rfl
  have hred : pollAndEnqueueJobs now defs config st initialQueues
      = ⟨{ st with
            runs := st.runs ++ [pendingRunRow st.nextRunId row.job_name jd.queue
              ((config.lookup jd.queue).getD queuePriorityDefault)]
            nextRunId := st.nextRunId + 1 },
         initialQueues,
         some ("TypeError: undefined is not an object (this.queues[" ++ jd.queue ++ "])")⟩ := by
    rw [pollAndEnqueueJobs, hrows]
    simp [pollLoop, hdef, if_neg hne, hlook, hrow]
  rw [hred]
  exact ⟨rfl, rfl, rfl, rfl, rfl, rfl⟩

/-- Witness for C10: a due entry for a job declaring queue `weird`, polled
against the three constructed queues: the batch faults. -/
theorem poll_unknown_queue_fault_witness :
    (pollAndEnqueueJobs 10
        [("bad", ⟨"b.ts", "bad", "weird", false, none, none, false⟩), ("j", jdSub)]
        [("default", 1)] ⟨[], [⟨"bad", 0⟩, ⟨"j", 0⟩], 5⟩ initialQueues).fault.isSome = true :=
  (poll_unknown_queue_fault 10
      [("bad", ⟨"b.ts", "bad", "weird", false, none, none, false⟩), ("j", jdSub)]
      [("default", 1)] ⟨[], [⟨"bad", 0⟩, ⟨"j", 0⟩], 5⟩ ⟨"bad", 0⟩ [⟨"j", 0⟩]
      ⟨"b.ts", "bad", "weird", false, none, none, false⟩
      (by decide) (by decide) (by decide) (by decide) (by decide) (by decide)).1

end GutPunch
